import Mathlib

/-!
Verification development for the DocWise resource-governance layer
(rate limiter, usage limiter, cache service) and the search router.

The governance classes live in the backend package `core` (imported by the
routers and exercised by `tests/test_rate_limit.py`, `tests/test_usage_limits.py`,
`tests/test_cache.py`, `tests/test_coverage_gap_fill.py`); their behaviour is
modelled here from the specification, with timestamps as rationals (Python
floats) and the per-process fallback maps as ordered association lists.
-/

namespace DocWise

/-- Ordered association map used for the in-process fallback stores and the
modelled distributed key-value store. Newest (last-touched) entries sit at
the end of the list. -/
abbrev MemMap (α : Type) : Type := List (String × α)

/-- Look up the value stored under a key. -/
def lookupKey {α : Type} (m : MemMap α) (k : String) : Option α :=
  (m.find? (fun p => p.1 == k)).map (fun p => p.2)

/-- Remove every binding of a key. -/
def eraseKey {α : Type} (m : MemMap α) (k : String) : MemMap α :=
  m.filter (fun p => !(p.1 == k))

/-- Modelled from the spec: the in-memory fallback map of every governance
component is bounded; when the distinct-key count exceeds a configured
ceiling the oldest entries (front of the list) are dropped. -/
def pruneOldest {α : Type} (ceiling : ℕ) (m : MemMap α) : MemMap α :=
  m.drop (m.length - ceiling)

/-- Plain store of a binding (used for the modelled distributed store, which
the governance layer never prunes): erase the key and append the new
binding at the last-touch position. -/
def setKey {α : Type} (m : MemMap α) (k : String) (v : α) : MemMap α :=
  eraseKey m k ++ [(k, v)]

/-- Store a binding in a fallback map and prune it to the ceiling. -/
def insertKey {α : Type} (ceiling : ℕ) (m : MemMap α) (k : String) (v : α) :
    MemMap α :=
  pruneOldest ceiling (setKey m k v)

theorem length_pruneOldest_le {α : Type} (ceiling : ℕ) (m : MemMap α) :
    (pruneOldest ceiling m).length ≤ ceiling := by
  simp only [pruneOldest, List.length_drop]
  omega

theorem length_eraseKey_le {α : Type} (m : MemMap α) (k : String) :
    (eraseKey m k).length ≤ m.length :=
  List.length_filter_le _ m

theorem length_insertKey_le {α : Type} (ceiling : ℕ) (m : MemMap α)
    (k : String) (v : α) : (insertKey ceiling m k v).length ≤ ceiling :=
  length_pruneOldest_le ceiling _

theorem eraseKey_key_ne {α : Type} {m : MemMap α} {k : String} :
    ∀ p ∈ eraseKey m k, (p.1 == k) = false := by
  intro p hp
  have h := List.of_mem_filter hp
  simpa using h

theorem lookupKey_append_of_none {α : Type} {A : MemMap α} {k : String}
    (h : ∀ p ∈ A, (p.1 == k) = false) (B : MemMap α) :
    lookupKey (A ++ B) k = lookupKey B k := by
  induction A with
  | nil => rfl
  | cons p A ih =>
      have hp : (p.1 == k) = false := h p (List.mem_cons_self p A)
      have hrest : ∀ q ∈ A, (q.1 == k) = false := fun q hq =>
        h q (List.mem_cons_of_mem p hq)
      have hstep : lookupKey ((p :: A) ++ B) k = lookupKey (A ++ B) k := by
        simp [lookupKey, hp]
      rw [hstep]
      exact ih hrest

theorem lookupKey_eraseKey {α : Type} (m : MemMap α) (k : String) :
    lookupKey (eraseKey m k) k = none := by
  have h := @eraseKey_key_ne α m k
  have := lookupKey_append_of_none h ([] : MemMap α)
  simpa [lookupKey] using this

theorem lookupKey_setKey_self {α : Type} (m : MemMap α) (k : String) (v : α) :
    lookupKey (setKey m k v) k = some v := by
  have h := @eraseKey_key_ne α m k
  have := lookupKey_append_of_none h [(k, v)]
  simpa [setKey, lookupKey] using this

theorem lookupKey_insertKey_self {α : Type} {ceiling : ℕ} (m : MemMap α)
    (k : String) (v : α) (hc : 1 ≤ ceiling) :
    lookupKey (insertKey ceiling m k v) k = some v := by
  unfold insertKey pruneOldest setKey
  have hlen : (eraseKey m k).length + 1 - ceiling ≤ (eraseKey m k).length := by
    omega
  rw [show (eraseKey m k ++ [(k, v)]).length = (eraseKey m k).length + 1 by simp]
  rw [List.drop_append_eq_append_drop]
  have hz : (eraseKey m k).length + 1 - ceiling - (eraseKey m k).length = 0 := by
    omega
  rw [hz]
  have hdrop : ∀ p ∈ (eraseKey m k).drop ((eraseKey m k).length + 1 - ceiling),
      (p.1 == k) = false := fun p hp =>
    eraseKey_key_ne p (List.drop_subset _ _ hp)
  have := lookupKey_append_of_none hdrop (([(k, v)] : MemMap α).drop 0)
  simpa [lookupKey] using this

theorem insertKey_singleton {α : Type} {ceiling : ℕ} (hc : 1 ≤ ceiling)
    (k : String) (v : α) : insertKey ceiling ([] : MemMap α) k v = [(k, v)] := by
  unfold insertKey pruneOldest setKey eraseKey
  simp [hc]

theorem insertKey_overwrite {α : Type} {ceiling : ℕ} (hc : 1 ≤ ceiling)
    (k : String) (v w : α) :
    insertKey ceiling ([(k, v)] : MemMap α) k w = [(k, w)] := by
  unfold insertKey pruneOldest setKey
  have h1 : eraseKey ([(k, v)] : MemMap α) k = [] := by
    simp [eraseKey]
  rw [h1, List.nil_append]
  have h2 : ([(k, w)] : MemMap α).length - ceiling = 0 := by
    simp
    omega
  rw [h2]
  rfl

/-- State of the distributed-store handle as the governance layer sees it:
not configured, raising connectivity/protocol errors on every operation, or
working with the given key-value contents. -/
inductive Backend (σ : Type) : Type
  | absent : Backend σ
  | failing : Backend σ
  | working (kv : σ) : Backend σ

/-- Modelled from the spec: per-process state of `core.rate_limit.RateLimiter`
(missing from the shipped sources; behaviour fixed by §4.2 of the spec and by
`tests/test_rate_limit.py`). `memory_counts` maps a scope key to the pair
`(count, windowExpiresAt)` of the current fixed window; the distributed path
keeps one integer counter per key (its expiry is internal to the store). -/
structure RateLimiter where
  backend : Backend (MemMap ℕ)
  memory_counts : MemMap (ℕ × ℚ)

namespace RateLimiter

/-- Modelled from the spec: the window entry produced by one memory-path hit,
given the entry previously stored for the key. A missing entry or one whose
expiry is past starts a fresh window anchored at `now`; an in-window hit
increments the count and keeps the stored boundary. -/
def windowEntry (old : Option (ℕ × ℚ)) (window_seconds now : ℚ) : ℕ × ℚ :=
  match old with
  | none => (1, now + window_seconds)
  | some co =>
      if co.2 < now then (1, now + window_seconds) else (co.1 + 1, co.2)

/-- Modelled from the spec: the in-memory fixed-window path of
`RateLimiter.hit`. The stored count is never rolled back even when the hit
is blocked; a blocked hit reports `remaining = 0`. -/
def hitMemory (ceiling : ℕ) (counts : MemMap (ℕ × ℚ)) (key : String)
    (limit : ℕ) (window_seconds now : ℚ) : (Bool × ℕ) × MemMap (ℕ × ℚ) :=
  let entry := windowEntry (lookupKey counts key) window_seconds now
  let counts' := insertKey ceiling counts key entry
  if limit < entry.1 then ((false, 0), counts')
  else ((true, limit - entry.1), counts')

/-- Modelled from the spec: `RateLimiter.hit`. The distributed path
increments the key and reads the post-increment value; any backend error is
absorbed and the call completes on the in-memory path. -/
def hit (ceiling : ℕ) (s : RateLimiter) (key : String) (limit : ℕ)
    (window_seconds now : ℚ) : (Bool × ℕ) × RateLimiter :=
  match s.backend with
  | .working kv =>
      let v := (lookupKey kv key).getD 0 + 1
      let kv' := setKey kv key v
      (if limit < v then (false, 0) else (true, limit - v),
       { backend := .working kv', memory_counts := s.memory_counts })
  | b =>
      let r := hitMemory ceiling s.memory_counts key limit window_seconds now
      (r.1, { backend := b, memory_counts := r.2 })

/-- Memory-path state after `n` successive hits on one key, all at time
`now` (a fresh key to start with). -/
def hitRepeat (ceiling : ℕ) (key : String) (limit : ℕ)
    (window_seconds now : ℚ) : ℕ → MemMap (ℕ × ℚ)
  | 0 => []
  | n + 1 =>
      (hitMemory ceiling (hitRepeat ceiling key limit window_seconds now n)
        key limit window_seconds now).2

/-- Result of the `(n+1)`-th successive hit in the scenario of `hitRepeat`. -/
def hitResult (ceiling : ℕ) (key : String) (limit : ℕ)
    (window_seconds now : ℚ) (n : ℕ) : Bool × ℕ :=
  (hitMemory ceiling (hitRepeat ceiling key limit window_seconds now n)
    key limit window_seconds now).1

theorem hitRepeat_state (ceiling : ℕ) (key : String) (limit : ℕ)
    (window_seconds now : ℚ) (hc : 1 ≤ ceiling) (hw : 0 ≤ window_seconds) :
    ∀ n, hitRepeat ceiling key limit window_seconds now (n + 1) =
      [(key, (n + 1, now + window_seconds))] := by
  intro n
  induction n with
  | zero =>
      simp only [hitRepeat, hitMemory, lookupKey, List.find?_nil, Option.map_none,
        windowEntry]
      rw [insertKey_singleton hc]
      by_cases h : limit < 1 <;> simp [h]
  | succ m ih =>
      have hnot : ¬ (now + window_seconds < now) := by
        intro h
        nlinarith
      simp only [hitRepeat] at ih ⊢
      rw [ih]
      have hl : lookupKey ([(key, (m + 1, now + window_seconds))] : MemMap (ℕ × ℚ))
          key = some (m + 1, now + window_seconds) := by
        simp [lookupKey]
      simp only [hitMemory, hl, windowEntry]
      rw [if_neg hnot]
      rw [insertKey_overwrite hc]
      by_cases h : limit < m + 1 + 1 <;> simp [h]

theorem hitMemory_snd (ceiling : ℕ) (counts : MemMap (ℕ × ℚ)) (key : String)
    (limit : ℕ) (window_seconds now : ℚ) :
    (hitMemory ceiling counts key limit window_seconds now).2 =
      insertKey ceiling counts key
        (windowEntry (lookupKey counts key) window_seconds now) := by
  unfold hitMemory
  by_cases h : limit < (windowEntry (lookupKey counts key) window_seconds now).1 <;>
    simp [h]

theorem hitMemory_fst (ceiling : ℕ) (counts : MemMap (ℕ × ℚ)) (key : String)
    (limit : ℕ) (window_seconds now : ℚ) :
    (hitMemory ceiling counts key limit window_seconds now).1 =
      (if limit < (windowEntry (lookupKey counts key) window_seconds now).1
       then (false, 0)
       else (true,
         limit - (windowEntry (lookupKey counts key) window_seconds now).1)) := by
  unfold hitMemory
  by_cases h : limit < (windowEntry (lookupKey counts key) window_seconds now).1 <;>
    simp [h]

theorem hitResult_zero (ceiling : ℕ) (key : String) (limit : ℕ)
    (window_seconds now : ℚ) :
    hitResult ceiling key limit window_seconds now 0 =
      (if limit < 1 then (false, 0) else (true, limit - 1)) := by
  unfold hitResult hitRepeat
  rw [hitMemory_fst]
  simp [lookupKey, windowEntry]

theorem hitResult_succ (ceiling : ℕ) (key : String) (limit : ℕ)
    (window_seconds now : ℚ) (hc : 1 ≤ ceiling) (hw : 0 ≤ window_seconds)
    (m : ℕ) :
    hitResult ceiling key limit window_seconds now (m + 1) =
      (if limit < m + 2 then (false, 0) else (true, limit - (m + 2))) := by
  unfold hitResult
  rw [hitRepeat_state ceiling key limit window_seconds now hc hw m]
  rw [hitMemory_fst]
  have hl : lookupKey ([(key, (m + 1, now + window_seconds))] : MemMap (ℕ × ℚ))
      key = some (m + 1, now + window_seconds) := by
    simp [lookupKey]
  have hnot : ¬ (now + window_seconds < now) := by
    intro h
    nlinarith
  rw [hl]
  simp [windowEntry, hnot]

end RateLimiter

/-- C1: for every key and every positive limit and window, the first `limit`
calls to `RateLimiter.hit` on a fresh key (memory path, all within the same
window) return `allowed = true` with `remaining = limit - (i+1)` on the
`(i+1)`-th call — strictly decreasing from `limit - 1` down to `0` — and the
`(limit+1)`-th call returns `allowed = false` with `remaining = 0`. -/
theorem rate_limiter_allows_limit_hits_then_blocks
    (ceiling : ℕ) (key : String) (limit : ℕ) (window_seconds now : ℚ)
    (hc : 1 ≤ ceiling) (hl : 0 < limit) (hw : 0 < window_seconds) :
    (∀ i, i < limit →
      RateLimiter.hitResult ceiling key limit window_seconds now i =
        (true, limit - (i + 1))) ∧
    RateLimiter.hitResult ceiling key limit window_seconds now limit =
      (false, 0) := by
  have hw' : 0 ≤ window_seconds := le_of_lt hw
  constructor
  · intro i hi
    cases i with
    | zero =>
        rw [RateLimiter.hitResult_zero]
        have h1 : ¬ (limit < 1) := by omega
        simp [h1]
    | succ m =>
        rw [RateLimiter.hitResult_succ ceiling key limit window_seconds now hc hw' m]
        have h1 : ¬ (limit < m + 2) := by omega
        simp [h1]
  · obtain ⟨m, rfl⟩ : ∃ m, limit = m + 1 := ⟨limit - 1, by omega⟩
    rw [RateLimiter.hitResult_succ ceiling key (m + 1) window_seconds now hc hw' m]
    have h1 : m + 1 < m + 2 := by omega
    simp [h1]

/-- Instantiation of the C1 theorem: limit 5, window 60 seconds — the third
call still has 2 remaining and the sixth call is blocked. -/
theorem rate_limiter_allows_limit_hits_then_blocks_witness :
    RateLimiter.hitResult 8 "k" 5 60 0 2 = (true, 2) ∧
    RateLimiter.hitResult 8 "k" 5 60 0 5 = (false, 0) :=
  ⟨(rate_limiter_allows_limit_hits_then_blocks 8 "k" 5 60 0 (by decide)
      (by decide) (by decide)).1 2 (by decide),
   (rate_limiter_allows_limit_hits_then_blocks 8 "k" 5 60 0 (by decide)
      (by decide) (by decide)).2⟩

/-- C5: once `now` is past the stored window expiry the next memory-path hit
behaves as a fresh first hit (allowed, counter reset to 1, new window
anchored at `now`), while a hit inside the window only increments the count
and leaves the window boundary unchanged (fixed window, not sliding). -/
theorem rate_limiter_fixed_window_reset
    (ceiling : ℕ) (counts : MemMap (ℕ × ℚ)) (key : String) (limit c : ℕ)
    (window_seconds now expiresAt : ℚ)
    (hc : 1 ≤ ceiling) (hl : 0 < limit)
    (hfound : lookupKey counts key = some (c, expiresAt)) :
    (expiresAt < now →
      (RateLimiter.hitMemory ceiling counts key limit window_seconds now).1 =
        (true, limit - 1) ∧
      lookupKey
        (RateLimiter.hitMemory ceiling counts key limit window_seconds now).2
        key = some (1, now + window_seconds)) ∧
    (¬ expiresAt < now →
      lookupKey
        (RateLimiter.hitMemory ceiling counts key limit window_seconds now).2
        key = some (c + 1, expiresAt)) := by
  constructor
  · intro hpast
    have he : RateLimiter.windowEntry (some (c, expiresAt)) window_seconds now =
        (1, now + window_seconds) := by
      simp [RateLimiter.windowEntry, hpast]
    constructor
    · rw [RateLimiter.hitMemory_fst, hfound, he]
      have h1 : ¬ (limit < 1) := by omega
      simp [h1]
    · rw [RateLimiter.hitMemory_snd, hfound, he,
        lookupKey_insertKey_self counts key _ hc]
  · intro hin
    have he : RateLimiter.windowEntry (some (c, expiresAt)) window_seconds now =
        (c + 1, expiresAt) := by
      simp [RateLimiter.windowEntry, hin]
    rw [RateLimiter.hitMemory_snd, hfound, he,
      lookupKey_insertKey_self counts key _ hc]

/-- Instantiation of the C5 theorem: a window that expired at 10 is reset by
a hit at 20, and an in-window hit at 5 keeps the boundary at 10. -/
theorem rate_limiter_fixed_window_reset_witness :
    ((RateLimiter.hitMemory 8 [("k", (3, 10))] "k" 5 60 20).1 = (true, 5 - 1) ∧
      lookupKey (RateLimiter.hitMemory 8 [("k", (3, 10))] "k" 5 60 20).2 "k" =
        some (1, 20 + 60)) ∧
    lookupKey (RateLimiter.hitMemory 8 [("k", (3, 10))] "k" 5 60 5).2 "k" =
      some (3 + 1, 10) :=
  ⟨(rate_limiter_fixed_window_reset 8 [("k", (3, 10))] "k" 5 3 60 20 10
      (by decide) (by decide) (by decide)).1 (by decide),
   (rate_limiter_fixed_window_reset 8 [("k", (3, 10))] "k" 5 3 60 5 10
      (by decide) (by decide) (by decide)).2 (by decide)⟩

/-- Client-visible governance failures raised by `UsageLimiter`; both are
surfaced as HTTP 429 responses. -/
inductive UsageError : Type
  | dailyQuotaExceeded : UsageError
  | tooManyConcurrentStreams : UsageError
deriving DecidableEq

/-- HTTP status carried by each usage failure (both 429, "too many
requests"). -/
def UsageError.status_code : UsageError → ℕ := fun _ => 429

/-- Modelled from the spec: per-process state of
`core.usage_limits.UsageLimiter` (missing from the shipped sources;
behaviour fixed by §4.3 of the spec, `tests/test_usage_limits.py` and
`tests/test_coverage_gap_fill.py`). One distributed counter store serves
both sub-contracts; the two fallback maps hold the day-keyed unit totals
and the per-user active stream counts. -/
structure UsageLimiter where
  backend : Backend (MemMap ℕ)
  memory_daily_units : MemMap ℕ
  memory_streams : MemMap ℕ

namespace UsageLimiter

/-- Modelled from the spec: `UsageLimiter._day_key` — the UTC day index
`floor(unixTimeSeconds / 86400)` of a timestamp. -/
def day_key (now : ℚ) : ℤ := ⌊now / 86400⌋

/-- Composite counter key for the daily budget: the user scope joined with
the rendered UTC day index. -/
def dailyKey (userScope : String) (now : ℚ) : String :=
  userScope ++ ":" ++ toString (day_key now)

/-- Distributed-store key for a user's active stream counter. -/
def streamKey (userScope : String) : String :=
  "streams:" ++ userScope

/-- Modelled from the spec: memory path of `consume_daily_units` — under the
per-key lock, read the day counter, add the units and reject before the new
total becomes visible when it would exceed the budget. -/
def consumeDailyMemory (ceiling budget : ℕ) (mem : MemMap ℕ)
    (userScope : String) (units : ℕ) (now : ℚ) :
    Except UsageError Unit × MemMap ℕ :=
  let k := dailyKey userScope now
  let total := (lookupKey mem k).getD 0 + units
  if budget < total then (Except.error UsageError.dailyQuotaExceeded, mem)
  else (Except.ok (), insertKey ceiling mem k total)

/-- Modelled from the spec: distributed path of `consume_daily_units` —
atomically add the units (incrby) and read the new total; on a total beyond
the budget, compensate by subtracting the units back before raising. -/
def consumeDailyRedis (budget : ℕ) (kv : MemMap ℕ) (userScope : String)
    (units : ℕ) (now : ℚ) : Except UsageError Unit × MemMap ℕ :=
  let k := dailyKey userScope now
  let total := (lookupKey kv k).getD 0 + units
  let kv' := setKey kv k total
  if budget < total then
    (Except.error UsageError.dailyQuotaExceeded, setKey kv' k (total - units))
  else (Except.ok (), kv')

/-- Modelled from the spec: `UsageLimiter.consume_daily_units`, dispatching
to the distributed store and absorbing backend errors into the memory
path. -/
def consume_daily_units (ceiling budget : ℕ) (s : UsageLimiter)
    (userScope : String) (units : ℕ) (now : ℚ) :
    Except UsageError Unit × UsageLimiter :=
  match s.backend with
  | .working kv =>
      let r := consumeDailyRedis budget kv userScope units now
      (r.1, { s with backend := .working r.2 })
  | b =>
      let r := consumeDailyMemory ceiling budget s.memory_daily_units
        userScope units now
      (r.1, { s with backend := b, memory_daily_units := r.2 })

/-- Modelled from the spec: memory path of `acquire_stream_slot` — reject
when the active count is already at the per-user maximum, otherwise
increment. -/
def acquireStreamMemory (ceiling max_streams : ℕ) (mem : MemMap ℕ)
    (userScope : String) : Except UsageError Unit × MemMap ℕ :=
  let current := (lookupKey mem userScope).getD 0
  if max_streams ≤ current then
    (Except.error UsageError.tooManyConcurrentStreams, mem)
  else (Except.ok (), insertKey ceiling mem userScope (current + 1))

/-- Modelled from the spec: distributed path of `acquire_stream_slot` —
atomically increment (incr), and when the result exceeds the maximum,
compensate with a decrement before raising. -/
def acquireStreamRedis (max_streams : ℕ) (kv : MemMap ℕ)
    (userScope : String) : Except UsageError Unit × MemMap ℕ :=
  let k := streamKey userScope
  let v := (lookupKey kv k).getD 0 + 1
  let kv' := setKey kv k v
  if max_streams < v then
    (Except.error UsageError.tooManyConcurrentStreams, setKey kv' k (v - 1))
  else (Except.ok (), kv')

/-- Modelled from the spec: `UsageLimiter.acquire_stream_slot`. -/
def acquire_stream_slot (ceiling max_streams : ℕ) (s : UsageLimiter)
    (userScope : String) : Except UsageError Unit × UsageLimiter :=
  match s.backend with
  | .working kv =>
      let r := acquireStreamRedis max_streams kv userScope
      (r.1, { s with backend := .working r.2 })
  | b =>
      let r := acquireStreamMemory ceiling max_streams s.memory_streams userScope
      (r.1, { s with backend := b, memory_streams := r.2 })

/-- Modelled from the spec: memory path of `release_stream_slot` — decrement
clamped at zero, deleting the entry when the count reaches zero. -/
def releaseStreamMemory (ceiling : ℕ) (mem : MemMap ℕ)
    (userScope : String) : MemMap ℕ :=
  let v := (lookupKey mem userScope).getD 0 - 1
  if v = 0 then eraseKey mem userScope else insertKey ceiling mem userScope v

/-- Modelled from the spec: distributed path of `release_stream_slot` —
decrement (decr) and delete the key when the count reaches zero. -/
def releaseStreamRedis (kv : MemMap ℕ) (userScope : String) : MemMap ℕ :=
  let k := streamKey userScope
  let v := (lookupKey kv k).getD 0 - 1
  if v = 0 then eraseKey kv k else setKey kv k v

/-- Modelled from the spec: `UsageLimiter.release_stream_slot`. -/
def release_stream_slot (ceiling : ℕ) (s : UsageLimiter)
    (userScope : String) : UsageLimiter :=
  match s.backend with
  | .working kv => { s with backend := .working (releaseStreamRedis kv userScope) }
  | b =>
      { s with
        backend := b
        memory_streams := releaseStreamMemory ceiling s.memory_streams userScope }

/-- Memory-path stream map after `n` successive acquisitions by one user
with no intervening release (rejected acquisitions leave the map as is). -/
def acquireRepeat (ceiling max_streams : ℕ) (userScope : String) :
    ℕ → MemMap ℕ
  | 0 => []
  | n + 1 =>
      (acquireStreamMemory ceiling max_streams
        (acquireRepeat ceiling max_streams userScope n) userScope).2

/-- Result of the `(n+1)`-th successive acquisition in the scenario of
`acquireRepeat`. -/
def acquireResult (ceiling max_streams : ℕ) (userScope : String) (n : ℕ) :
    Except UsageError Unit :=
  (acquireStreamMemory ceiling max_streams
    (acquireRepeat ceiling max_streams userScope n) userScope).1

end UsageLimiter

/-- Predicate following the claim wording: two unix timestamps fall in the
same UTC calendar day, i.e. some day index `d` brackets both of them in
`[86400 d, 86400 (d+1))`. -/
def sameUtcDay (t1 t2 : ℚ) : Prop :=
  ∃ d : ℤ, ((d : ℚ) * 86400 ≤ t1 ∧ t1 < ((d : ℚ) + 1) * 86400) ∧
    ((d : ℚ) * 86400 ≤ t2 ∧ t2 < ((d : ℚ) + 1) * 86400)

/-- C8: two timestamps yield the same `UsageLimiter._day_key` exactly when
they fall in the same UTC calendar day; timestamps in different days always
yield distinct keys (the reverse direction of the equivalence). -/
theorem usage_limiter_day_key_same_day_iff (t1 t2 : ℚ) :
    UsageLimiter.day_key t1 = UsageLimiter.day_key t2 ↔ sameUtcDay t1 t2 := by
  have h86 : (0 : ℚ) < 86400 := by norm_num
  constructor
  · intro h
    refine ⟨UsageLimiter.day_key t1, ⟨?_, ?_⟩, ⟨?_, ?_⟩⟩
    · have := Int.floor_le (t1 / 86400)
      calc ((UsageLimiter.day_key t1 : ℤ) : ℚ) * 86400
          ≤ t1 / 86400 * 86400 := by
            exact mul_le_mul_of_nonneg_right this (le_of_lt h86)
        _ = t1 := by field_simp
    · have := Int.lt_floor_add_one (t1 / 86400)
      have h2 : t1 / 86400 * 86400 < (((UsageLimiter.day_key t1 : ℤ) : ℚ) + 1) * 86400 :=
        mul_lt_mul_of_pos_right this h86
      calc t1 = t1 / 86400 * 86400 := by field_simp
        _ < (((UsageLimiter.day_key t1 : ℤ) : ℚ) + 1) * 86400 := h2
    · have := Int.floor_le (t2 / 86400)
      rw [h]
      calc ((UsageLimiter.day_key t2 : ℤ) : ℚ) * 86400
          ≤ t2 / 86400 * 86400 := by
            exact mul_le_mul_of_nonneg_right this (le_of_lt h86)
        _ = t2 := by field_simp
    · have := Int.lt_floor_add_one (t2 / 86400)
      have h2 : t2 / 86400 * 86400 < (((UsageLimiter.day_key t2 : ℤ) : ℚ) + 1) * 86400 :=
        mul_lt_mul_of_pos_right this h86
      rw [h]
      calc t2 = t2 / 86400 * 86400 := by field_simp
        _ < (((UsageLimiter.day_key t2 : ℤ) : ℚ) + 1) * 86400 := h2
  · rintro ⟨d, ⟨h11, h12⟩, ⟨h21, h22⟩⟩
    have e1 : UsageLimiter.day_key t1 = d := by
      apply Int.floor_eq_iff.mpr
      constructor
      · rw [le_div_iff h86]
        exact h11
      · rw [div_lt_iff h86]
        push_cast
        exact h12
    have e2 : UsageLimiter.day_key t2 = d := by
      apply Int.floor_eq_iff.mpr
      constructor
      · rw [le_div_iff h86]
        exact h21
      · rw [div_lt_iff h86]
        push_cast
        exact h22
    rw [e1, e2]

/-- C3: when the cumulative daily total after adding `units` would exceed
the budget, `consume_daily_units` raises the quota-exceeded failure
(HTTP 429) and the stored daily total is unchanged afterwards — the memory
path never makes the increment visible, and the distributed path rolls the
increment back. -/
theorem usage_limiter_daily_quota_rejection_rolls_back
    (ceiling budget : ℕ) (mem kv : MemMap ℕ) (userScope : String)
    (units : ℕ) (now : ℚ) (hu : 0 < units) :
    (budget < (lookupKey mem (UsageLimiter.dailyKey userScope now)).getD 0 + units →
      UsageLimiter.consumeDailyMemory ceiling budget mem userScope units now =
        (Except.error UsageError.dailyQuotaExceeded, mem)) ∧
    (budget < (lookupKey kv (UsageLimiter.dailyKey userScope now)).getD 0 + units →
      (UsageLimiter.consumeDailyRedis budget kv userScope units now).1 =
        Except.error UsageError.dailyQuotaExceeded ∧
      (lookupKey (UsageLimiter.consumeDailyRedis budget kv userScope units now).2
          (UsageLimiter.dailyKey userScope now)).getD 0 =
        (lookupKey kv (UsageLimiter.dailyKey userScope now)).getD 0) := by
  constructor
  · intro hover
    unfold UsageLimiter.consumeDailyMemory
    rw [if_pos hover]
  · intro hover
    unfold UsageLimiter.consumeDailyRedis
    rw [if_pos hover]
    refine ⟨rfl, ?_⟩
    rw [lookupKey_setKey_self]
    simp only [Option.getD_some]
    omega

/-- Instantiation of the C3 theorem: budget 10, a user already at 6 units
asking for 6 more is rejected on both paths and the stored total stays 6. -/
theorem usage_limiter_daily_quota_rejection_rolls_back_witness :
    UsageLimiter.consumeDailyMemory 8 10 [(UsageLimiter.dailyKey "u" 0, 6)]
        "u" 6 0 =
      (Except.error UsageError.dailyQuotaExceeded,
       [(UsageLimiter.dailyKey "u" 0, 6)]) ∧
    (lookupKey
        (UsageLimiter.consumeDailyRedis 10 [(UsageLimiter.dailyKey "u" 0, 6)]
          "u" 6 0).2 (UsageLimiter.dailyKey "u" 0)).getD 0 =
      (lookupKey [(UsageLimiter.dailyKey "u" 0, 6)]
        (UsageLimiter.dailyKey "u" 0)).getD 0 :=
  ⟨(usage_limiter_daily_quota_rejection_rolls_back 8 10
      [(UsageLimiter.dailyKey "u" 0, 6)] [(UsageLimiter.dailyKey "u" 0, 6)]
      "u" 6 0 (by decide)).1 (by simp [lookupKey]),
   ((usage_limiter_daily_quota_rejection_rolls_back 8 10
      [(UsageLimiter.dailyKey "u" 0, 6)] [(UsageLimiter.dailyKey "u" 0, 6)]
      "u" 6 0 (by decide)).2 (by simp [lookupKey])).2⟩

theorem acquireRepeat_state (ceiling max_streams : ℕ) (userScope : String)
    (hc : 1 ≤ ceiling) :
    ∀ n, n ≤ max_streams →
      UsageLimiter.acquireRepeat ceiling max_streams userScope n =
        (if n = 0 then [] else [(userScope, n)]) := by
  intro n
  induction n with
  | zero =>
      intro _
      simp [UsageLimiter.acquireRepeat]
  | succ m ih =>
      intro hle
      have hm : m ≤ max_streams := by omega
      simp only [UsageLimiter.acquireRepeat]
      rw [ih hm]
      by_cases hm0 : m = 0
      · subst hm0
        have hN : ¬ (max_streams ≤ 0) := by omega
        simp only [if_pos rfl]
        unfold UsageLimiter.acquireStreamMemory
        simp [lookupKey, hN, insertKey_singleton hc]
      · have hne : ¬ (m + 1 = 0) := by omega
        have hlk : lookupKey ([(userScope, m)] : MemMap ℕ) userScope = some m := by
          simp [lookupKey]
        have hN : ¬ (max_streams ≤ m) := by omega
        rw [if_neg hm0, if_neg hne]
        unfold UsageLimiter.acquireStreamMemory
        simp [hlk, hN, insertKey_overwrite hc]

/-- C4: for configured per-user maximum `N`, `N+1` acquisitions with no
release succeed `N` times and raise the concurrent-stream failure
(HTTP 429) on the `(N+1)`-th, which leaves the memory map untouched; on the
distributed path a rejected acquisition's increment is compensated by a
decrement, leaving the stored slot count unchanged. -/
theorem usage_limiter_stream_slots_block_at_max
    (ceiling max_streams : ℕ) (userScope : String) (kv : MemMap ℕ)
    (hc : 1 ≤ ceiling) :
    (∀ n, n < max_streams →
      UsageLimiter.acquireResult ceiling max_streams userScope n =
        Except.ok ()) ∧
    (UsageLimiter.acquireResult ceiling max_streams userScope max_streams =
      Except.error UsageError.tooManyConcurrentStreams ∧
     UsageLimiter.acquireRepeat ceiling max_streams userScope
        (max_streams + 1) =
      UsageLimiter.acquireRepeat ceiling max_streams userScope max_streams) ∧
    (max_streams ≤ (lookupKey kv (UsageLimiter.streamKey userScope)).getD 0 →
      (UsageLimiter.acquireStreamRedis max_streams kv userScope).1 =
        Except.error UsageError.tooManyConcurrentStreams ∧
      (lookupKey (UsageLimiter.acquireStreamRedis max_streams kv userScope).2
          (UsageLimiter.streamKey userScope)).getD 0 =
        (lookupKey kv (UsageLimiter.streamKey userScope)).getD 0) := by
  have hblocked :
      (UsageLimiter.acquireStreamMemory ceiling max_streams
        (UsageLimiter.acquireRepeat ceiling max_streams userScope max_streams)
        userScope) =
      (Except.error UsageError.tooManyConcurrentStreams,
       UsageLimiter.acquireRepeat ceiling max_streams userScope max_streams) := by
    rw [acquireRepeat_state ceiling max_streams userScope hc max_streams le_rfl]
    by_cases hN0 : max_streams = 0
    · subst hN0
      simp [UsageLimiter.acquireStreamMemory, lookupKey]
    · have hlk : lookupKey ([(userScope, max_streams)] : MemMap ℕ) userScope =
          some max_streams := by
        simp [lookupKey]
      rw [if_neg hN0]
      unfold UsageLimiter.acquireStreamMemory
      simp [hlk]
  refine ⟨?_, ⟨?_, ?_⟩, ?_⟩
  · intro n hn
    unfold UsageLimiter.acquireResult
    rw [acquireRepeat_state ceiling max_streams userScope hc n (le_of_lt hn)]
    by_cases hn0 : n = 0
    · subst hn0
      have hN : ¬ (max_streams ≤ 0) := by omega
      simp [UsageLimiter.acquireStreamMemory, lookupKey, hN]
    · have hlk : lookupKey ([(userScope, n)] : MemMap ℕ) userScope = some n := by
        simp [lookupKey]
      have hN : ¬ (max_streams ≤ n) := by omega
      rw [if_neg hn0]
      unfold UsageLimiter.acquireStreamMemory
      simp [hlk, hN]
  · unfold UsageLimiter.acquireResult
    rw [hblocked]
  · show (UsageLimiter.acquireStreamMemory ceiling max_streams
        (UsageLimiter.acquireRepeat ceiling max_streams userScope max_streams)
        userScope).2 = _
    rw [hblocked]
  · intro hfull
    unfold UsageLimiter.acquireStreamRedis
    have hover : max_streams <
        (lookupKey kv (UsageLimiter.streamKey userScope)).getD 0 + 1 := by
      omega
    rw [if_pos hover]
    refine ⟨rfl, ?_⟩
    rw [lookupKey_setKey_self]
    simp only [Option.getD_some]
    omega

/-- Instantiation of the C4 theorem: with a maximum of one concurrent
stream, the first acquisition succeeds, the second is rejected without
touching the map, and a rejected distributed acquisition leaves the stored
count at 1. -/
theorem usage_limiter_stream_slots_block_at_max_witness :
    UsageLimiter.acquireResult 8 1 "u" 0 = Except.ok () ∧
    UsageLimiter.acquireResult 8 1 "u" 1 =
      Except.error UsageError.tooManyConcurrentStreams ∧
    (lookupKey (UsageLimiter.acquireStreamRedis 1
        [(UsageLimiter.streamKey "u", 1)] "u").2
      (UsageLimiter.streamKey "u")).getD 0 =
      (lookupKey [(UsageLimiter.streamKey "u", 1)]
        (UsageLimiter.streamKey "u")).getD 0 :=
  ⟨(usage_limiter_stream_slots_block_at_max 8 1 "u"
      [(UsageLimiter.streamKey "u", 1)] (by decide)).1 0 (by decide),
   (usage_limiter_stream_slots_block_at_max 8 1 "u"
      [(UsageLimiter.streamKey "u", 1)] (by decide)).2.1.1,
   ((usage_limiter_stream_slots_block_at_max 8 1 "u"
      [(UsageLimiter.streamKey "u", 1)] (by decide)).2.2 (by decide)).2⟩

/-- Modelled from the spec: per-process state of `core.cache.CacheService`
(missing from the shipped sources; behaviour fixed by §4.4 of the spec,
`tests/test_cache.py` and `tests/test_coverage_gap_fill.py`). Values are
kept abstract in `V` (the code stores the JSON serialization, whose
round-trip is the identity on JSON-serializable values); the memory map
stores `(expiresAt, value)` pairs, and the distributed store keeps the
value under the key with a TTL managed inside the store. -/
structure CacheService (V : Type) where
  enabled : Bool
  backend : Backend (MemMap V)
  memory_cache : MemMap (ℚ × V)

namespace CacheService

/-- Modelled from the spec: memory path of `get_json` — an entry is never
returned once `now` is at or past its expiry, and the read that discovers
the expiry deletes the entry. -/
def getJsonMemory {V : Type} (mem : MemMap (ℚ × V)) (key : String)
    (now : ℚ) : Option V × MemMap (ℚ × V) :=
  match lookupKey mem key with
  | none => (none, mem)
  | some ev => if ev.1 ≤ now then (none, eraseKey mem key) else (some ev.2, mem)

/-- Modelled from the spec: memory path of `set_json` — overwrite the entry
with an absolute expiry of `now + ttl_seconds`. -/
def setJsonMemory {V : Type} (ceiling : ℕ) (mem : MemMap (ℚ × V))
    (key : String) (v : V) (ttl_seconds now : ℚ) : MemMap (ℚ × V) :=
  insertKey ceiling mem key (now + ttl_seconds, v)

/-- Modelled from the spec: `CacheService.get_json`. When caching is
disabled the call returns absent and changes nothing; otherwise the
distributed store is consulted first and any backend error is absorbed
into the memory path. -/
def get_json {V : Type} (ceiling : ℕ) (s : CacheService V) (key : String)
    (now : ℚ) : Option V × CacheService V :=
  if s.enabled then
    match s.backend with
    | .working kv => (lookupKey kv key, s)
    | b =>
        let r := getJsonMemory s.memory_cache key now
        (r.1, { s with backend := b, memory_cache := r.2 })
  else (none, s)

/-- Modelled from the spec: `CacheService.set_json`. A no-op when caching is
disabled; otherwise the value is stored in the distributed store with a TTL
(internal to the store), falling back to the memory path on any backend
error. -/
def set_json {V : Type} (ceiling : ℕ) (s : CacheService V) (key : String)
    (v : V) (ttl_seconds now : ℚ) : CacheService V :=
  if s.enabled then
    match s.backend with
    | .working kv => { s with backend := .working (setKey kv key v) }
    | b =>
        { s with
          backend := b
          memory_cache := setJsonMemory ceiling s.memory_cache key v ttl_seconds now }
  else s

end CacheService

/-- C6: on the in-memory path with caching enabled, `set_json` followed
immediately by `get_json` returns the stored value (for any positive TTL),
and once `now` reaches an entry's expiry, `get_json` returns absent and
removes the entry from the memory map. -/
theorem cache_set_get_roundtrip_and_expiry_purge {V : Type} (ceiling : ℕ)
    (s : CacheService V) (key : String) (v : V) (ttl_seconds now : ℚ)
    (hen : s.enabled = true) (hb : s.backend = Backend.absent)
    (hc : 1 ≤ ceiling) (ht : 0 < ttl_seconds) :
    (CacheService.get_json ceiling
        (CacheService.set_json ceiling s key v ttl_seconds now) key now).1 =
      some v ∧
    (∀ exp w, lookupKey s.memory_cache key = some (exp, w) → exp ≤ now →
      (CacheService.get_json ceiling s key now).1 = none ∧
      lookupKey (CacheService.get_json ceiling s key now).2.memory_cache key =
        none) := by
  constructor
  · have hset : CacheService.set_json ceiling s key v ttl_seconds now =
        { s with
          backend := Backend.absent
          memory_cache :=
            CacheService.setJsonMemory ceiling s.memory_cache key v
              ttl_seconds now } := by
      unfold CacheService.set_json
      rw [hen, hb]
      simp
    rw [hset]
    unfold CacheService.get_json
    simp only [hen, if_true]
    have hlk : lookupKey
        (CacheService.setJsonMemory ceiling s.memory_cache key v ttl_seconds
          now) key = some (now + ttl_seconds, v) :=
      lookupKey_insertKey_self s.memory_cache key _ hc
    unfold CacheService.getJsonMemory
    rw [hlk]
    have hfresh : ¬ (now + ttl_seconds ≤ now) := by
      intro h
      nlinarith
    simp [hfresh]
  · intro exp w hlk hexp
    unfold CacheService.get_json
    rw [hb]
    simp only [hen, if_true]
    unfold CacheService.getJsonMemory
    rw [hlk]
    simp only [hexp, if_pos]
    exact ⟨trivial, lookupKey_eraseKey s.memory_cache key⟩

/-- Instantiation of the C6 theorem: a value set with TTL 60 at time 0 is
readable immediately, and an entry that expired at time 5 is absent and
purged when read at time 9. -/
theorem cache_set_get_roundtrip_and_expiry_purge_witness :
    (CacheService.get_json 8
        (CacheService.set_json 8
          (⟨true, Backend.absent, []⟩ : CacheService String) "k" "v" 60 0)
        "k" 0).1 = some "v" ∧
    ((CacheService.get_json 8
        (⟨true, Backend.absent, [("k", (5, "w"))]⟩ : CacheService String)
        "k" 9).1 = none ∧
      lookupKey (CacheService.get_json 8
        (⟨true, Backend.absent, [("k", (5, "w"))]⟩ : CacheService String)
        "k" 9).2.memory_cache "k" = none) :=
  ⟨(cache_set_get_roundtrip_and_expiry_purge 8
      (⟨true, Backend.absent, []⟩ : CacheService String) "k" "v" 60 0 rfl rfl
      (by decide) (by decide)).1,
   (cache_set_get_roundtrip_and_expiry_purge 8
      (⟨true, Backend.absent, [("k", (5, "w"))]⟩ : CacheService String)
      "k" "v" 60 9 rfl rfl (by decide) (by decide)).2 5 "w"
      (by simp [lookupKey]) (by decide)⟩

/-- C7: when the cache-enabled flag is false, `get_json` returns absent
without touching any state and `set_json` is a no-op, so no key is ever
added to the in-memory map. -/
theorem cache_disabled_get_absent_set_noop {V : Type} (ceiling : ℕ)
    (s : CacheService V) (key : String) (v : V) (ttl_seconds now : ℚ)
    (hoff : s.enabled = false) :
    (CacheService.get_json ceiling s key now).1 = none ∧
    (CacheService.get_json ceiling s key now).2 = s ∧
    CacheService.set_json ceiling s key v ttl_seconds now = s := by
  unfold CacheService.get_json CacheService.set_json
  rw [hoff]
  simp

/-- Instantiation of the C7 theorem: with the flag off, a read after a write
still sees nothing and the state is untouched. -/
theorem cache_disabled_get_absent_set_noop_witness :
    (CacheService.get_json 8
        (⟨false, Backend.absent, []⟩ : CacheService String) "k" 0).1 = none ∧
    (CacheService.get_json 8
        (⟨false, Backend.absent, []⟩ : CacheService String) "k" 0).2 =
      (⟨false, Backend.absent, []⟩ : CacheService String) ∧
    CacheService.set_json 8
        (⟨false, Backend.absent, []⟩ : CacheService String) "k" "v" 60 0 =
      (⟨false, Backend.absent, []⟩ : CacheService String) :=
  cache_disabled_get_absent_set_noop 8
    (⟨false, Backend.absent, []⟩ : CacheService String) "k" "v" 60 0 rfl

/-- C2: with the distributed backend raising connectivity/protocol errors,
every governance operation (`RateLimiter.hit`,
`UsageLimiter.consume_daily_units`, `CacheService.get_json`,
`CacheService.set_json`) completes on the in-memory fallback path and
returns the memory-path result — the backend error is never propagated
(each operation is a total function whose result carries no backend
failure). -/
theorem governance_backend_error_never_propagates
    (ceiling budget limit : ℕ) (counts : MemMap (ℕ × ℚ))
    (daily streams : MemMap ℕ) (cmem : MemMap (ℚ × String))
    (key userScope : String) (units : ℕ) (v : String)
    (window_seconds ttl_seconds now : ℚ) :
    RateLimiter.hit ceiling ⟨Backend.failing, counts⟩ key limit
        window_seconds now =
      ((RateLimiter.hitMemory ceiling counts key limit window_seconds now).1,
       ⟨Backend.failing,
        (RateLimiter.hitMemory ceiling counts key limit window_seconds now).2⟩) ∧
    UsageLimiter.consume_daily_units ceiling budget
        ⟨Backend.failing, daily, streams⟩ userScope units now =
      ((UsageLimiter.consumeDailyMemory ceiling budget daily userScope units
          now).1,
       ⟨Backend.failing,
        (UsageLimiter.consumeDailyMemory ceiling budget daily userScope units
          now).2, streams⟩) ∧
    CacheService.get_json ceiling ⟨true, Backend.failing, cmem⟩ key now =
      ((CacheService.getJsonMemory cmem key now).1,
       ⟨true, Backend.failing, (CacheService.getJsonMemory cmem key now).2⟩) ∧
    CacheService.set_json ceiling ⟨true, Backend.failing, cmem⟩ key v
        ttl_seconds now =
      ⟨true, Backend.failing,
       CacheService.setJsonMemory ceiling cmem key v ttl_seconds now⟩ :=
  ⟨rfl, rfl, rfl, rfl⟩

/-- One operation against the governance layer's in-memory fallback maps
(the scenario of the bounded-memory invariant). -/
inductive GovOp : Type
  | rateHit (key : String) (limit : ℕ) (window_seconds now : ℚ)
  | consumeDaily (userScope : String) (units : ℕ) (now : ℚ)
  | acquireSlot (userScope : String)
  | releaseSlot (userScope : String)
  | cacheGet (key : String) (now : ℚ)
  | cacheSet (key : String) (v : String) (ttl_seconds now : ℚ)

/-- The in-memory fallback maps of the three governance components. -/
structure GovState where
  rate_counts : MemMap (ℕ × ℚ)
  daily_units : MemMap ℕ
  streams : MemMap ℕ
  cache_entries : MemMap (ℚ × String)

/-- Effect of one memory-path governance operation on the fallback maps. -/
def govStep (ceiling budget max_streams : ℕ) (s : GovState) :
    GovOp → GovState
  | GovOp.rateHit key limit w now =>
      { s with rate_counts :=
          (RateLimiter.hitMemory ceiling s.rate_counts key limit w now).2 }
  | GovOp.consumeDaily u units now =>
      { s with daily_units :=
          (UsageLimiter.consumeDailyMemory ceiling budget s.daily_units u
            units now).2 }
  | GovOp.acquireSlot u =>
      { s with streams :=
          (UsageLimiter.acquireStreamMemory ceiling max_streams s.streams u).2 }
  | GovOp.releaseSlot u =>
      { s with streams :=
          UsageLimiter.releaseStreamMemory ceiling s.streams u }
  | GovOp.cacheGet k now =>
      { s with cache_entries :=
          (CacheService.getJsonMemory s.cache_entries k now).2 }
  | GovOp.cacheSet k v ttl now =>
      { s with cache_entries :=
          CacheService.setJsonMemory ceiling s.cache_entries k v ttl now }

/-- Run a sequence of governance operations on the fallback maps. -/
def govRun (ceiling budget max_streams : ℕ) (ops : List GovOp)
    (s : GovState) : GovState :=
  ops.foldl (govStep ceiling budget max_streams) s

/-- Fresh per-process state: all fallback maps empty. -/
def govInit : GovState := ⟨[], [], [], []⟩

/-- Every fallback map holds at most `c` distinct keys. -/
def boundedBy (c : ℕ) (s : GovState) : Prop :=
  s.rate_counts.length ≤ c ∧ s.daily_units.length ≤ c ∧
    s.streams.length ≤ c ∧ s.cache_entries.length ≤ c

theorem length_hitMemory_snd_le (c : ℕ) (m : MemMap (ℕ × ℚ)) (k : String)
    (limit : ℕ) (w now : ℚ) :
    (RateLimiter.hitMemory c m k limit w now).2.length ≤ c := by
  rw [RateLimiter.hitMemory_snd]
  exact length_insertKey_le c m k _

theorem length_consumeDailyMemory_snd_le (c b : ℕ) (m : MemMap ℕ)
    (u : String) (units : ℕ) (now : ℚ) (h : m.length ≤ c) :
    (UsageLimiter.consumeDailyMemory c b m u units now).2.length ≤ c := by
  unfold UsageLimiter.consumeDailyMemory
  by_cases hb : b < (lookupKey m (UsageLimiter.dailyKey u now)).getD 0 + units
  · simpa [hb] using h
  · simpa [hb] using length_insertKey_le c m (UsageLimiter.dailyKey u now) _

theorem length_acquireStreamMemory_snd_le (c ms : ℕ) (m : MemMap ℕ)
    (u : String) (h : m.length ≤ c) :
    (UsageLimiter.acquireStreamMemory c ms m u).2.length ≤ c := by
  unfold UsageLimiter.acquireStreamMemory
  by_cases hb : ms ≤ (lookupKey m u).getD 0
  · simpa [hb] using h
  · simpa [hb] using length_insertKey_le c m u _

theorem length_releaseStreamMemory_le (c : ℕ) (m : MemMap ℕ) (u : String)
    (h : m.length ≤ c) :
    (UsageLimiter.releaseStreamMemory c m u).length ≤ c := by
  unfold UsageLimiter.releaseStreamMemory
  by_cases hz : (lookupKey m u).getD 0 - 1 = 0
  · simpa [hz] using le_trans (length_eraseKey_le m u) h
  · simpa [hz] using length_insertKey_le c m u _

theorem length_getJsonMemory_snd_le {V : Type} (c : ℕ) (m : MemMap (ℚ × V))
    (k : String) (now : ℚ) (h : m.length ≤ c) :
    (CacheService.getJsonMemory m k now).2.length ≤ c := by
  unfold CacheService.getJsonMemory
  cases hl : lookupKey m k with
  | none => simpa using h
  | some ev =>
      by_cases he : ev.1 ≤ now
      · simpa [he] using le_trans (length_eraseKey_le m k) h
      · simpa [he] using h

theorem length_setJsonMemory_le {V : Type} (c : ℕ) (m : MemMap (ℚ × V))
    (k : String) (v : V) (ttl now : ℚ) :
    (CacheService.setJsonMemory c m k v ttl now).length ≤ c :=
  length_insertKey_le c m k _

theorem boundedBy_govStep (c b ms : ℕ) (s : GovState) (op : GovOp)
    (h : boundedBy c s) : boundedBy c (govStep c b ms s op) := by
  obtain ⟨h1, h2, h3, h4⟩ := h
  cases op with
  | rateHit key limit w now =>
      exact ⟨length_hitMemory_snd_le c s.rate_counts key limit w now, h2, h3, h4⟩
  | consumeDaily u units now =>
      exact ⟨h1, length_consumeDailyMemory_snd_le c b s.daily_units u units now h2,
        h3, h4⟩
  | acquireSlot u =>
      exact ⟨h1, h2, length_acquireStreamMemory_snd_le c ms s.streams u h3, h4⟩
  | releaseSlot u =>
      exact ⟨h1, h2, length_releaseStreamMemory_le c s.streams u h3, h4⟩
  | cacheGet k now =>
      exact ⟨h1, h2, h3, length_getJsonMemory_snd_le c s.cache_entries k now h4⟩
  | cacheSet k v ttl now =>
      exact ⟨h1, h2, h3, length_setJsonMemory_le c s.cache_entries k v ttl now⟩

theorem boundedBy_govRun (c b ms : ℕ) (ops : List GovOp) :
    ∀ s, boundedBy c s → boundedBy c (govRun c b ms ops s) := by
  induction ops with
  | nil => exact fun s h => h
  | cons op ops ih =>
      exact fun s h => ih _ (boundedBy_govStep c b ms s op h)

/-- C9: starting from fresh per-process state, after every sequence of
governance operations each component's in-memory fallback map holds at most
the configured ceiling of distinct keys — excess entries are pruned oldest
first on insertion, so the maps never grow unboundedly with distinct scope
keys. -/
theorem governance_memory_maps_stay_bounded (ceiling budget max_streams : ℕ)
    (ops : List GovOp) :
    boundedBy ceiling (govRun ceiling budget max_streams ops govInit) :=
  boundedBy_govRun ceiling budget max_streams ops govInit
    ⟨Nat.zero_le ceiling, Nat.zero_le ceiling, Nat.zero_le ceiling,
     Nat.zero_le ceiling⟩

/-- Python `str.strip()`: drop leading and trailing whitespace. -/
def pyStrip (s : String) : String :=
  ⟨((s.data.dropWhile Char.isWhitespace).reverse.dropWhile
      Char.isWhitespace).reverse⟩

/-- Python `str.lower()` over the characters of the string. -/
def pyLower (s : String) : String :=
  ⟨s.data.map Char.toLower⟩

/-- HTTP failures raised inside `routers/search.py:search_documents`. -/
inductive HttpError : Type
  | notFound : HttpError
  | forbidden : HttpError
deriving DecidableEq

/-- Status code of each failure (`File not found` is 404; the ownership
check rejects with 403). -/
def HttpError.status_code : HttpError → ℕ
  | HttpError.notFound => 404
  | HttpError.forbidden => 403

/-- The slice of a `models.file.File` row the search handler reads. -/
structure FileRecord where
  created_by : Option String

/-- Modelled from the spec: `core.authz.assert_file_owner` (module missing
from the shipped sources; behaviour fixed by `tests/test_authz.py`) —
raises 403 unless the record's creator is a non-empty string among the
requesting user's owner scopes. -/
def assert_file_owner (created_by : Option String)
    (ownerScopes : List String) : Except HttpError Unit :=
  match created_by with
  | none => Except.error HttpError.forbidden
  | some s =>
      if s ≠ "" ∧ s ∈ ownerScopes then Except.ok ()
      else Except.error HttpError.forbidden

/-- Request body of the search endpoint (`SearchRequest`). -/
structure SearchRequest where
  query : String
  file_id : String
  top_k : ℕ

/-- One raw result dict from `embedding_service.search_similar`; every field
is optional, mirroring `dict.get`. -/
structure RawHit where
  text : Option String
  score : Option ℚ
  start_time : Option ℚ
  end_time : Option ℚ
  file_id : Option String

/-- One entry of the response list built by the handler. -/
structure SearchResponseItem where
  text : String
  score : ℚ
  startTime : Option ℚ
  endTime : Option ℚ
  fileId : Option String
deriving DecidableEq

/-- The response-building comprehension of `search_documents`. -/
def toResponseItem (r : RawHit) : SearchResponseItem :=
  { text := r.text.getD ""
    score := r.score.getD 0
    startTime := r.start_time
    endTime := r.end_time
    fileId := r.file_id }

/-- Count of effectful calls the handler makes after the ownership check:
cache reads, cache writes and vector-similarity searches. -/
structure SearchTrace where
  cache_lookups : ℕ
  cache_writes : ℕ
  vector_searches : ℕ
deriving DecidableEq

/-- Trace of a handler run that performed no cache or search work. -/
def emptyTrace : SearchTrace := ⟨0, 0, 0⟩

/-- Shallow embedding of `routers/search.py:search_documents` (the handler
body, after its dependencies resolved): look up the file row, enforce
ownership, short-circuit blank queries, then serve from cache or run the
vector search and populate the cache. `raw` is what
`embedding_service.search_similar` would return if called. -/
def search_documents (ceiling : ℕ) (cache_ttl_search_seconds : ℚ)
    (cache : CacheService (List SearchResponseItem))
    (file_record : Option FileRecord) (ownerScopes : List String)
    (raw : List RawHit) (body : SearchRequest) (now : ℚ) :
    Except HttpError (List SearchResponseItem) × SearchTrace ×
      CacheService (List SearchResponseItem) :=
  match file_record with
  | none => (Except.error HttpError.notFound, emptyTrace, cache)
  | some fr =>
      match assert_file_owner fr.created_by ownerScopes with
      | Except.error e => (Except.error e, emptyTrace, cache)
      | Except.ok () =>
          if pyStrip body.query = "" then (Except.ok [], emptyTrace, cache)
          else
            let cache_key := "search:" ++ body.file_id ++ ":" ++
              toString body.top_k ++ ":" ++ pyLower (pyStrip body.query)
            let g := CacheService.get_json ceiling cache cache_key now
            match g.1 with
            | some cached => (Except.ok cached, ⟨1, 0, 0⟩, g.2)
            | none =>
                let response := raw.map toResponseItem
                let c' := CacheService.set_json ceiling g.2 cache_key response
                  cache_ttl_search_seconds now
                (Except.ok response, ⟨1, 1, 1⟩, c')

/-- C10: a search request whose query is empty or all-whitespace returns
the empty list with no cache lookup, no cache write and no vector search
(the cache state is untouched and the trace is zero), while the ownership
check still runs first — a non-owner gets 403 even for a blank query. -/
theorem search_blank_query_short_circuits (ceiling : ℕ)
    (cache_ttl_search_seconds now : ℚ)
    (cache : CacheService (List SearchResponseItem)) (fr : FileRecord)
    (ownerScopes : List String) (raw : List RawHit) (body : SearchRequest)
    (hq : pyStrip body.query = "") :
    (assert_file_owner fr.created_by ownerScopes = Except.ok () →
      search_documents ceiling cache_ttl_search_seconds cache (some fr)
        ownerScopes raw body now = (Except.ok [], emptyTrace, cache)) ∧
    (∀ e, assert_file_owner fr.created_by ownerScopes = Except.error e →
      search_documents ceiling cache_ttl_search_seconds cache (some fr)
        ownerScopes raw body now = (Except.error e, emptyTrace, cache)) := by
  constructor
  · intro hok
    simp [search_documents, hok, hq]
  · intro e herr
    simp [search_documents, herr]

/-- Instantiation of the C10 theorem: a whitespace-only query from the
owner yields the empty list with a zero trace, and the same query from a
non-owner is rejected with 403. -/
theorem search_blank_query_short_circuits_witness :
    search_documents 8 60 (⟨true, Backend.absent, []⟩ :
        CacheService (List SearchResponseItem)) (some ⟨some "u@x.com"⟩)
      ["u@x.com"] [] ⟨"   ", "f1", 5⟩ 0 = (Except.ok [], emptyTrace,
        (⟨true, Backend.absent, []⟩ :
          CacheService (List SearchResponseItem))) ∧
    search_documents 8 60 (⟨true, Backend.absent, []⟩ :
        CacheService (List SearchResponseItem)) (some ⟨some "u@x.com"⟩)
      ["other@x.com"] [] ⟨"   ", "f1", 5⟩ 0 = (Except.error
        HttpError.forbidden, emptyTrace,
        (⟨true, Backend.absent, []⟩ :
          CacheService (List SearchResponseItem))) :=
  ⟨(search_blank_query_short_circuits 8 60 0
      (⟨true, Backend.absent, []⟩ : CacheService (List SearchResponseItem))
      ⟨some "u@x.com"⟩ ["u@x.com"] [] ⟨"   ", "f1", 5⟩ (by decide)).1 rfl,
   (search_blank_query_short_circuits 8 60 0
      (⟨true, Backend.absent, []⟩ : CacheService (List SearchResponseItem))
      ⟨some "u@x.com"⟩ ["other@x.com"] [] ⟨"   ", "f1", 5⟩ (by decide)).2
      HttpError.forbidden rfl⟩

end DocWise
